import Mathlib

/-!
Verification of the release-identification and date-resolution pipeline of
`mpp_dashboard` (agents/rss_agent.py, agents/earnings_agent.py,
agents/scrape_agent.py, agents/download_agent.py, agents/summary_agent.py).

The Python code is shallowly embedded: dictionaries of strings become a
structure of string fields (missing keys are the empty string, matching
`row.get(k, "")`), CPython's date parsing (`datetime.fromisoformat`,
`datetime.strptime`) is reproduced for the formats the code invokes, and a
branch of Python code that can raise an uncaught exception is modelled as an
`Option`-valued function where `none` is the raised exception.
-/

namespace MPP

/-- Numeric value of a list of ASCII digit characters, most significant first
(the value `int(s)` computes on a digit string). -/
def digitsToNat (cs : List Char) : Nat :=
  cs.foldl (fun a c => a * 10 + (c.toNat - 48)) 0

/-- All characters are ASCII digits (`\d` over the ASCII range). -/
def allDigits (cs : List Char) : Bool :=
  cs.all Char.isDigit

/-- Python `str.strip()` (whitespace from both ends). -/
def pyStrip (s : String) : String :=
  String.mk (((s.data.dropWhile Char.isWhitespace).reverse.dropWhile Char.isWhitespace).reverse)

/-- Python `str.rstrip("Z")`: remove trailing `Z` characters. -/
def rstripZ (s : String) : String :=
  String.mk ((s.data.reverse.dropWhile (fun c => c = 'Z')).reverse)

/-- Python `str.lower()` (ASCII case mapping, the range the pipeline feeds it). -/
def pyLower (s : String) : String :=
  String.mk (s.data.map Char.toLower)

/-- Python `str.upper()` (ASCII case mapping). -/
def pyUpper (s : String) : String :=
  String.mk (s.data.map Char.toUpper)

/-- Python `str.split(sep)` for a one-character separator: `"".split` is
`[""]`, adjacent separators produce empty pieces. -/
def splitChar (sep : Char) : List Char → List (List Char)
  | [] => [[]]
  | c :: cs =>
    let r := splitChar sep cs
    if c = sep then [] :: r
    else
      match r with
      | [] => [[c]]
      | t :: ts => (c :: t) :: ts

/-- Whether `s` contains `pat` as a contiguous substring (Python `pat in s`). -/
def listContainsSub (pat : List Char) : List Char → Bool
  | [] => pat.isEmpty
  | c :: tl => pat.isPrefixOf (c :: tl) || listContainsSub pat tl

/-- Python `pat in s` on strings. -/
def strContains (s pat : String) : Bool :=
  listContainsSub pat.data s.data

/-- A calendar date as CPython's `datetime.date` carries it. -/
structure PyDate where
  year : Nat
  month : Nat
  day : Nat
deriving DecidableEq, Repr

/-- Sort key mirroring `datetime.date` comparison (lexicographic on
year, month, day; valid dates have `month ≤ 12` and `day ≤ 31`). -/
def PyDate.key (d : PyDate) : Nat :=
  d.year * 10000 + d.month * 100 + d.day

/-- `datetime.date.min`, i.e. 0001-01-01. -/
def dateMin : PyDate := ⟨1, 1, 1⟩

/-- Gregorian leap-year rule used by `datetime.date`. -/
def isLeapYear (y : Nat) : Bool :=
  (y % 4 = 0 && y % 100 ≠ 0) || y % 400 = 0

/-- Days in a month, as `datetime.date` validates them. -/
def daysInMonth (y m : Nat) : Nat :=
  if m = 2 then (if isLeapYear y then 29 else 28)
  else if m = 4 ∨ m = 6 ∨ m = 9 ∨ m = 11 then 30
  else 31

/-- `datetime.date(y, m, d)`: `some` on a valid date, `none` when the
constructor raises `ValueError`. -/
def mkPyDate (y m d : Nat) : Option PyDate :=
  if 1 ≤ y ∧ y ≤ 9999 ∧ 1 ≤ m ∧ m ≤ 12 ∧ 1 ≤ d ∧ d ≤ daysInMonth y m
  then some ⟨y, m, d⟩ else none

/-- The digit character for `n < 10` (`Nat.digitChar` restricted to one digit). -/
def digChar (n : Nat) : Char := Nat.digitChar n

/-- Two-digit zero-padded decimal rendering (`strftime` `%m` / `%d`). -/
def pad2 (n : Nat) : List Char :=
  [digChar (n / 10 % 10), digChar (n % 10)]

/-- Four-digit zero-padded decimal rendering (`strftime` `%Y` for the years
`1..9999` that the parsers below can produce; Python documents `%Y` as
zero-padded). -/
def pad4 (n : Nat) : List Char :=
  [digChar (n / 1000 % 10), digChar (n / 100 % 10), digChar (n / 10 % 10), digChar (n % 10)]

/-- `d.strftime("%Y%m%d")`. -/
def fmtYmd (d : PyDate) : String :=
  String.mk (pad4 d.year ++ pad2 d.month ++ pad2 d.day)

/-- One queue record: a CSV/dict row of the pipeline. A key absent from the
underlying dict reads as the empty string, matching `row.get(k) or ""`. -/
structure Row where
  release_id : String := ""
  source : String := ""
  dataset : String := ""
  parser : String := ""
  url : String := ""
  published : String := ""
  status : String := ""
  error : String := ""
  indicator : String := ""
  pub_date : String := ""
deriving DecidableEq, Repr

/-- `datetime.fromisoformat` (CPython 3.10) on a string of at most ten
characters: exactly `YYYY-MM-DD`, validated by the `date` constructor. -/
def pyIsoDate10 (cs : List Char) : Option PyDate :=
  match cs with
  | [y1, y2, y3, y4, s1, m1, m2, s2, d1, d2] =>
    if s1 = '-' ∧ s2 = '-' ∧ allDigits [y1, y2, y3, y4, m1, m2, d1, d2]
    then mkPyDate (digitsToNat [y1, y2, y3, y4]) (digitsToNat [m1, m2]) (digitsToNat [d1, d2])
    else none
  | _ => none

/-- Helper: two digit characters whose value is at most `hi`. -/
def twoDigitsLE (a b : Char) (hi : Nat) : Bool :=
  a.isDigit && b.isDigit && digitsToNat [a, b] ≤ hi

/-- The `HH[:MM[:SS[.fff[fff]]]]` clock grammar of CPython 3.10's
`_parse_isoformat_time` (fractions must be exactly three or six digits). -/
def pyClockOk : List Char → Bool
  | [a, b] => twoDigitsLE a b 23
  | [a, b, ':', c, d] => twoDigitsLE a b 23 && twoDigitsLE c d 59
  | [a, b, ':', c, d, ':', e, f] =>
    twoDigitsLE a b 23 && twoDigitsLE c d 59 && twoDigitsLE e f 59
  | [a, b, ':', c, d, ':', e, f, '.', g, h, i] =>
    twoDigitsLE a b 23 && twoDigitsLE c d 59 && twoDigitsLE e f 59 && allDigits [g, h, i]
  | [a, b, ':', c, d, ':', e, f, '.', g, h, i, j, k, l] =>
    twoDigitsLE a b 23 && twoDigitsLE c d 59 && twoDigitsLE e f 59 && allDigits [g, h, i, j, k, l]
  | _ => false

/-- A UTC-offset tail `HH:MM` or `HH:MM:SS` after the sign character. -/
def pyOffsetOk : List Char → Bool
  | [a, b, ':', c, d] => twoDigitsLE a b 23 && twoDigitsLE c d 59
  | [a, b, ':', c, d, ':', e, f] =>
    twoDigitsLE a b 23 && twoDigitsLE c d 59 && twoDigitsLE e f 59
  | _ => false

/-- The time portion of an ISO string: a clock, optionally followed by a
signed UTC offset (CPython splits at the first `-`, else the first `+`). -/
def pyIsoTimeOk (cs : List Char) : Bool :=
  if cs.contains '-' then
    pyClockOk (cs.takeWhile (fun c => c ≠ '-')) &&
      pyOffsetOk ((cs.dropWhile (fun c => c ≠ '-')).drop 1)
  else if cs.contains '+' then
    pyClockOk (cs.takeWhile (fun c => c ≠ '+')) &&
      pyOffsetOk ((cs.dropWhile (fun c => c ≠ '+')).drop 1)
  else pyClockOk cs

/-- `datetime.fromisoformat` (CPython 3.10), keeping only the date part:
the first ten characters must be `YYYY-MM-DD`; any eleventh character is the
separator and the rest must be a valid time. -/
def pyIsoDatetime (cs : List Char) : Option PyDate :=
  match pyIsoDate10 (cs.take 10) with
  | none => none
  | some d =>
    match cs.drop 10 with
    | [] => some d
    | _ :: tstr => if pyIsoTimeOk tstr then some d else none

/-- A 1-or-2-digit strptime field (`%d`-style): digits only, value in
`lo..hi`, no `0`/`00`. -/
def fieldOneTwo (cs : List Char) (hi : Nat) : Bool :=
  allDigits cs && (cs.length = 1 || cs.length = 2) && 1 ≤ digitsToNat cs && digitsToNat cs ≤ hi

/-- `datetime.strptime(s, "%d-%m-%Y")` (CPython): day 1-31, month 1-12,
exactly four year digits, then `date` validity. -/
def strptimeDMY (cs : List Char) : Option PyDate :=
  match splitChar '-' cs with
  | [d, m, y] =>
    if fieldOneTwo d 31 ∧ fieldOneTwo m 12 ∧ allDigits y ∧ y.length = 4
    then mkPyDate (digitsToNat y) (digitsToNat m) (digitsToNat d) else none
  | _ => none

/-- `datetime.strptime(s, "%Y/%m/%d")`. -/
def strptimeYMDslash (cs : List Char) : Option PyDate :=
  match splitChar '/' cs with
  | [y, m, d] =>
    if allDigits y ∧ y.length = 4 ∧ fieldOneTwo m 12 ∧ fieldOneTwo d 31
    then mkPyDate (digitsToNat y) (digitsToNat m) (digitsToNat d) else none
  | _ => none

/-- `datetime.strptime(s, "%d/%m/%Y")`. -/
def strptimeDMYslash (cs : List Char) : Option PyDate :=
  match splitChar '/' cs with
  | [d, m, y] =>
    if fieldOneTwo d 31 ∧ fieldOneTwo m 12 ∧ allDigits y ∧ y.length = 4
    then mkPyDate (digitsToNat y) (digitsToNat m) (digitsToNat d) else none
  | _ => none

/-- `datetime.strptime(s, "%Y%m%d")` on an eight-digit run: the month and
day sub-fields must each be two digits (`01-12`, `01-31`), then `date`
validity. -/
def strptimeYmd8 (cs : List Char) : Option PyDate :=
  match cs with
  | [y1, y2, y3, y4, m1, m2, d1, d2] =>
    if allDigits [y1, y2, y3, y4, m1, m2, d1, d2]
       ∧ 1 ≤ digitsToNat [m1, m2] ∧ digitsToNat [m1, m2] ≤ 12
       ∧ 1 ≤ digitsToNat [d1, d2] ∧ digitsToNat [d1, d2] ≤ 31
    then mkPyDate (digitsToNat [y1, y2, y3, y4]) (digitsToNat [m1, m2]) (digitsToNat [d1, d2])
    else none
  | _ => none

/-- `datetime.strptime(s, "%d%m%y")` on a six-digit run; `%y` uses CPython's
pivot (`00-68` maps to `20yy`, `69-99` to `19yy`). -/
def strptimeDdmmyy6 (cs : List Char) : Option PyDate :=
  match cs with
  | [d1, d2, m1, m2, y1, y2] =>
    if allDigits [d1, d2, m1, m2, y1, y2]
       ∧ 1 ≤ digitsToNat [m1, m2] ∧ digitsToNat [m1, m2] ≤ 12
       ∧ 1 ≤ digitsToNat [d1, d2] ∧ digitsToNat [d1, d2] ≤ 31
    then
      let yy := digitsToNat [y1, y2]
      mkPyDate (if yy ≤ 68 then 2000 + yy else 1900 + yy) (digitsToNat [m1, m2]) (digitsToNat [d1, d2])
    else none
  | _ => none

/-! ## rss_agent.py -/

/-- Python string `<=`: lexicographic on code points. -/
def leChars : List Char → List Char → Bool
  | [], _ => true
  | _ :: _, [] => false
  | a :: as, b :: bs =>
    if a.toNat < b.toNat then true
    else if b.toNat < a.toNat then false
    else leChars as bs

/-- Python `a <= b` on strings. -/
def pyStrLE (a b : String) : Bool :=
  leChars a.data b.data

/-- `sort_key` (rss_agent.py): rearrange a dashed `published` value into
`YYYYMMDD`-shaped text; the tuple-unpacking `ValueError` on a piece count
other than three is caught and yields the empty fallback key. -/
def sort_key (r : Row) : String :=
  let pub := r.published
  if pub.data.contains '-' then
    match splitChar '-' pub.data with
    | [p0, p1, p2] =>
      if p0.length = 4 then String.mk (p0 ++ p1 ++ p2)
      else String.mk (p2 ++ p1 ++ p0)
    | _ => ""
  else ""

/-- The descending comparison `write_queue` sorts by:
`all_rows.sort(key=sort_key, reverse=True)`. -/
def queueGE (a b : Row) : Prop :=
  pyStrLE (sort_key b) (sort_key a) = true

instance : DecidableRel queueGE :=
  fun a b => inferInstanceAs (Decidable (pyStrLE (sort_key b) (sort_key a) = true))

instance : IsTotal Row queueGE :=
  ⟨fun a b => by
    show leChars (sort_key b).data (sort_key a).data = true ∨
      leChars (sort_key a).data (sort_key b).data = true
    generalize (sort_key b).data = xs
    generalize (sort_key a).data = ys
    induction xs generalizing ys with
    | nil => left; rfl
    | cons a as ih =>
      cases ys with
      | nil => right; rfl
      | cons b bs =>
        simp only [leChars]
        rcases Nat.lt_trichotomy a.toNat b.toNat with h | h | h
        · left; simp [h]
        · have h1 : ¬ a.toNat < b.toNat := by omega
          have h2 : ¬ b.toNat < a.toNat := by omega
          simpa [h1, h2] using ih bs
        · right; simp [h, Nat.lt_asymm h]⟩

instance : IsTrans Row queueGE :=
  ⟨fun x y z h1 h2 => by
    show leChars (sort_key z).data (sort_key x).data = true
    have h2' : leChars (sort_key z).data (sort_key y).data = true := h2
    have h1' : leChars (sort_key y).data (sort_key x).data = true := h1
    clear h1 h2
    generalize (sort_key z).data = as at h2' ⊢
    generalize (sort_key y).data = bs at h1' h2'
    generalize (sort_key x).data = cs at h1' ⊢
    revert h2' h1'
    induction as generalizing bs cs with
    | nil => intro h2' h1'; rfl
    | cons a as ih =>
      intro h2' h1'
      cases bs with
      | nil => simp [leChars] at h2'
      | cons b bs =>
        cases cs with
        | nil => simp [leChars] at h1'
        | cons c cs =>
          simp only [leChars] at h1' h2' ⊢
          by_cases hab1 : a.toNat < b.toNat
          · by_cases hbc1 : b.toNat < c.toNat
            · simp [show a.toNat < c.toNat by omega]
            · by_cases hbc2 : c.toNat < b.toNat
              · simp [hbc1, hbc2] at h1'
              · simp [show a.toNat < c.toNat by omega]
          · by_cases hab2 : b.toNat < a.toNat
            · simp [hab1, hab2] at h2'
            · simp only [hab1, hab2, if_false] at h2'
              by_cases hbc1 : b.toNat < c.toNat
              · simp [show a.toNat < c.toNat by omega]
              · by_cases hbc2 : c.toNat < b.toNat
                · simp [hbc1, hbc2] at h1'
                · simp only [hbc1, hbc2, if_false] at h1'
                  have h3 : ¬ a.toNat < c.toNat := by omega
                  have h4 : ¬ c.toNat < a.toNat := by omega
                  simp only [h3, h4, if_false]
                  exact ih bs cs h2' h1'⟩


/-- `write_queue` (rss_agent.py): the persisted row order — a stable sort,
descending by `sort_key` (column back-fill by `setdefault` is the identity
here because every `Row` field is total). -/
def write_queue (rows : List Row) : List Row :=
  List.insertionSort queueGE rows

/-- Release identity: `f"{source}_{dataset}_{unique}"` (rss_agent.py main). -/
def identity (source dataset unique : String) : String :=
  source ++ "_" ++ dataset ++ "_" ++ unique

/-- One parsed feed entry as the discovery loop reads it. `guid` is
`ent.get("id")`, `link` the resolved entry link (both empty when absent);
`published` is the date string the loop derives from the entry's structured
or raw timestamp, a deterministic function of the entry. -/
structure Entry where
  title : String := ""
  guid : String := ""
  link : String := ""
  published : String := ""
deriving DecidableEq, Repr

/-- One active config row together with the entries its feed parses to. -/
structure FeedSource where
  source : String := ""
  dataset : String := ""
  parser : String := ""
  entries : List Entry := []
deriving DecidableEq, Repr

/-- The dataset-specific title filters of the discovery loop. -/
def keepEntry (src ds : String) (e : Entry) : Bool :=
  let t := pyLower e.title
  if ds = "EARN_PRE" ∧ ¬ strContains t "pre-market earnings report" then false
  else if ds = "EARN_AH" ∧ ¬ strContains t "after-hours earnings report" then false
  else if src = "StatsCan" ∧ ds = "NHPI_CA" ∧ ¬ strContains t "new housing price index" then false
  else if src = "StatsCan" ∧ ds = "PPI_CA" ∧ ¬ strContains t "industrial product" then false
  else true

/-- `unique = guid or link` (rss_agent.py line 178). -/
def uniqueToken (e : Entry) : String :=
  if e.guid ≠ "" then e.guid else e.link

/-- The candidate queue row for one entry: `none` when the entry is dropped
by a title filter or lacks both GUID and link. -/
def entryRow (src ds prs : String) (e : Entry) : Option Row :=
  if ¬ keepEntry src ds e then none
  else if uniqueToken e = "" then none
  else some { release_id := identity src ds (uniqueToken e), source := src,
              dataset := ds, parser := prs, url := e.link,
              published := e.published, status := "QUEUED", error := "" }

/-- All candidate rows of one discovery run, in feed order. -/
def candidates (feed : List FeedSource) : List Row :=
  feed.flatMap fun s => s.entries.filterMap (entryRow s.source s.dataset s.parser)

/-- The `seen_ids` dedup fold of the discovery loop: a candidate whose
`release_id` is already seen is skipped, an accepted one extends the set. -/
def dedupNew (seen : List String) : List Row → List Row
  | [] => []
  | c :: cs =>
    if c.release_id ∈ seen then dedupNew seen cs
    else c :: dedupNew (c.release_id :: seen) cs

/-- One full discovery pass (`main` of rss_agent.py): load the existing
queue, skip already-seen identities, and persist existing and new rows in
`write_queue` order. -/
def runDiscovery (feed : List FeedSource) (existing : List Row) : List Row :=
  write_queue (existing ++ dedupNew (existing.map Row.release_id) (candidates feed))

/-! ## earnings_agent.py -/

/-- Month number for a lowered three-letter prefix of `SLUG_DATE_RE`'s
month alternation (the `sept` alternative is subsumed: the regex engine
commits to `sep` and `[a-z]*` absorbs the `t`). -/
def monthAbbrevNum (a b c : Char) : Option Nat :=
  let t := String.mk [a.toLower, b.toLower, c.toLower]
  if t = "jan" then some 1 else if t = "feb" then some 2
  else if t = "mar" then some 3 else if t = "apr" then some 4
  else if t = "may" then some 5 else if t = "jun" then some 6
  else if t = "jul" then some 7 else if t = "aug" then some 8
  else if t = "sep" then some 9 else if t = "oct" then some 10
  else if t = "nov" then some 11 else if t = "dec" then some 12
  else none

/-- Match `SLUG_DATE_RE` = `-(jan|...|dec)[a-z]*-(\d{1,2})-(\d{4})` (with
`re.I`) anchored at the head of `cs`: month number, day value, year value.
`[a-z]*` under `re.I` consumes ASCII letters; the greedy `\d{1,2}` must be
followed by `-`, so a run of three or more digits cannot match. -/
def slugMatchAt (cs : List Char) : Option (Nat × Nat × Nat) :=
  match cs with
  | '-' :: a :: b :: c :: rest =>
    match monthAbbrevNum a b c with
    | none => none
    | some mo =>
      match rest.dropWhile Char.isAlpha with
      | '-' :: rest3 =>
        let ds := rest3.takeWhile Char.isDigit
        if ds.length = 0 ∨ 2 < ds.length then none
        else
          match rest3.dropWhile Char.isDigit with
          | '-' :: y1 :: y2 :: y3 :: y4 :: _ =>
            if allDigits [y1, y2, y3, y4]
            then some (mo, digitsToNat ds, digitsToNat [y1, y2, y3, y4])
            else none
          | _ => none
      | _ => none
  | _ => none

/-- `SLUG_DATE_RE.search`: the leftmost position where `slugMatchAt`
succeeds. -/
def slugSearchAux : List Char → Option (Nat × Nat × Nat)
  | [] => none
  | c :: cs =>
    match slugMatchAt (c :: cs) with
    | some r => some r
    | none => slugSearchAux cs

/-- Slug-date search over a URL string. -/
def slugSearch (s : String) : Option (Nat × Nat × Nat) :=
  slugSearchAux s.data

/-- The date-stamp resolution inside `newest_by_tag` for one row: slug date
first (where `dt.date` may raise on an invalid day — modelled as `none`),
else ISO `published[:10]`, else `DD-MM-YYYY`, else `date.min`. -/
def resolveEarnDate (r : Row) : Option PyDate :=
  match slugSearch r.url with
  | some (mo, dy, yr) => mkPyDate yr mo dy
  | none =>
    let pub := pyStrip r.published
    match pyIsoDate10 (pub.data.take 10) with
    | some d => some d
    | none =>
      match strptimeDMY pub.data with
      | some d => some d
      | none => some dateMin

/-- Ordered-dict lookup for the `latest` mapping of `newest_by_tag`. -/
def alGet : List (String × Row × PyDate) → String → Option (Row × PyDate)
  | [], _ => none
  | (k, v) :: rest, t => if k = t then some v else alGet rest t

/-- Ordered-dict assignment `latest[tag] = r`: update in place, else append. -/
def alSet : List (String × Row × PyDate) → String → Row × PyDate → List (String × Row × PyDate)
  | [], t, v => [(t, v)]
  | (k, w) :: rest, t, v =>
    if k = t then (k, v) :: rest else (k, w) :: alSet rest t v

/-- One iteration of `newest_by_tag`'s selection:
`if tag not in latest or d > latest[tag]["_ts"]: latest[tag] = r`. -/
def nbtStep (acc : List (String × Row × PyDate)) (r : Row) (d : PyDate) :
    List (String × Row × PyDate) :=
  match alGet acc r.dataset with
  | none => alSet acc r.dataset (r, d)
  | some (_, d0) => if d0.key < d.key then alSet acc r.dataset (r, d) else acc

/-- The fold of `newest_by_tag`; `none` propagates a raised `ValueError`. -/
def nbtGo (acc : List (String × Row × PyDate)) : List Row → Option (List (String × Row × PyDate))
  | [] => some acc
  | r :: rs =>
    match resolveEarnDate r with
    | none => none
    | some d => nbtGo (nbtStep acc r d) rs

/-- `newest_by_tag` (earnings_agent.py): the latest row per dataset tag,
with its resolved `_ts` date. -/
def newest_by_tag (rows : List Row) : Option (List (String × Row × PyDate)) :=
  nbtGo [] rows

/-- The `MONTHS` filter set of earnings_agent.py (verbatim). -/
def MONTHS : List String :=
  ["JAN", "FEB", "MAR", "APR", "MAY", "JUN", "JUL", "AUG",
   "SEP", "SEPT", "OCT", "NOV", "DEC", "DECEMBER"]

/-- An uppercase ASCII letter (`[A-Z]`). -/
def isUpperAZ (c : Char) : Bool :=
  'A' ≤ c && c ≤ 'Z'

/-- `TICK_PAT` = `^[A-Z]{1,5}(?:\.[A-Z])?$`. -/
def tickMatch (s : List Char) : Bool :=
  let base := s.takeWhile isUpperAZ
  let rest := s.dropWhile isUpperAZ
  (1 ≤ base.length && base.length ≤ 5) &&
    (match rest with
     | [] => true
     | ['.', c] => isUpperAZ c
     | _ => false)

/-- `YEAR_SLUG.search` = `-(19|20)\d{2}-` : the end index of the leftmost
match. The pattern has no cased characters, so searching the lowered URL
finds the same position as searching the original. -/
def yearSlugEndAux : Nat → List Char → Option Nat
  | _, [] => none
  | p, c :: cs =>
    match c, cs with
    | '-', a :: b :: c2 :: d2 :: '-' :: _ =>
      if ((a = '1' ∧ b = '9') ∨ (a = '2' ∧ b = '0')) ∧ c2.isDigit ∧ d2.isDigit
      then some (p + 6) else yearSlugEndAux (p + 1) cs
    | _, _ => yearSlugEndAux (p + 1) cs

/-- `extract_tickers` (earnings_agent.py): tokens of the slug after the year,
skipping the `MONTHS` set, keeping `TICK_PAT` matches. -/
def extract_tickers (url : String) : List String :=
  match yearSlugEndAux 0 url.data with
  | none => []
  | some e =>
    let slug := (url.data.drop e).takeWhile (fun c => c ≠ '?')
    (splitChar '-' slug).filterMap fun t =>
      let up := String.mk (t.map Char.toUpper)
      if up ∈ MONTHS then none
      else if tickMatch up.data then some up else none

/-! ## scrape_agent.py -/

/-- `DATE_RE.search` = `(\d{6,8})` : the leftmost digit run of six or more
characters, greedily truncated to eight. -/
def dateRunSearch : List Char → Option (List Char)
  | [] => none
  | c :: tl =>
    let run := (c :: tl).takeWhile Char.isDigit
    if 6 ≤ run.length then some (run.take 8) else dateRunSearch tl

/-- Branch 2 of `best_stamp` applied to one matched digit run: an 8-digit
run is the stamp itself, a 6-digit run is `MMDDYY` with the `YY < 80`
century pivot; a 7-digit run falls through. -/
def bestRunStamp (s : List Char) : Option String :=
  if s.length = 8 then some (String.mk s)
  else if s.length = 6 then
    let mo := s.take 2
    let dy := (s.drop 2).take 2
    let yy := s.drop 4
    some (((if digitsToNat yy < 80 then "20" else "19") ++ String.mk yy
           ++ String.mk mo ++ String.mk dy))
  else none

/-- The digit-run stamp of one field of a row (`release_id` or `url`). -/
def stampFromDigits (field : List Char) : Option String :=
  (dateRunSearch field).bind bestRunStamp

/-- The `published` phase of `best_stamp`: `(published or pub_date or
"").strip()`, then ISO (after `rstrip("Z")`), `%d-%m-%Y`, `%Y/%m/%d`,
`%d/%m/%Y`, in that order. -/
def bestPubParse (row : Row) : Option PyDate :=
  let pub := pyStrip (if row.published ≠ "" then row.published else row.pub_date)
  if pub = "" then none
  else
    match pyIsoDatetime (rstripZ pub).data with
    | some d => some d
    | none =>
      match strptimeDMY pub.data with
      | some d => some d
      | none =>
        match strptimeYMDslash pub.data with
        | some d => some d
        | none => strptimeDMYslash pub.data

/-- `best_stamp` (scrape_agent.py). `today` is `datetime.utcnow`'s
`%Y%m%d` rendering, passed explicitly to keep the function pure. -/
def best_stamp (today : String) (row : Row) : String :=
  match bestPubParse row with
  | some d => fmtYmd d
  | none =>
    match stampFromDigits row.release_id.data with
    | some s => s
    | none =>
      match stampFromDigits row.url.data with
      | some s => s
      | none => today

/-- Python `str.startswith`. -/
def pyStartsWith (s pre : String) : Bool :=
  pre.data.isPrefixOf s.data

/-- `derive_indicator` (scrape_agent.py). -/
def derive_indicator (row : Row) : String :=
  if row.indicator ≠ "" then pyStrip row.indicator
  else
    let src := pyStrip row.source
    let dts := pyStrip row.dataset
    if src ≠ "" ∧ dts ≠ "" then src ++ "_" ++ dts
    else
      match (splitChar '_' row.release_id.data).map String.mk with
      | t0 :: t1 :: _ =>
        if ¬ pyStartsWith t1 "http" then t0 ++ "_" ++ t1
        else if t0 = "" then "UNKNOWN" else t0
      | [t0] => if t0 = "" then "UNKNOWN" else t0
      | [] => "UNKNOWN"

/-- Outcome of a pipeline stage's input-loading phase. -/
inductive LoadResult where
  | nothingToDo : LoadResult
  | proceed : List Row → LoadResult
  | exitError : String → LoadResult
deriving DecidableEq, Repr

/-- download_agent.py `main`, input phase: a missing queue logs a warning
and returns normally. `queue` is `none` when `rss_queue.csv` is absent. -/
def download_load (queue : Option (List Row)) : LoadResult :=
  match queue with
  | none => LoadResult.nothingToDo
  | some rows => LoadResult.proceed rows

/-- earnings_agent.py `main`, input phase: a missing queue logs and returns;
otherwise the Nasdaq earnings rows with status DOWNLOADED are kept, and an
empty selection also returns normally. -/
def earnings_load (queue : Option (List Row)) : LoadResult :=
  match queue with
  | none => LoadResult.nothingToDo
  | some rows =>
    let kept := rows.filter fun r =>
      r.source = "Nasdaq" ∧ (r.dataset = "EARN_PRE" ∨ r.dataset = "EARN_AH")
        ∧ r.status = "DOWNLOADED"
    if kept.isEmpty then LoadResult.nothingToDo else LoadResult.proceed kept

/-- The `--excel` input of scrape_agent.py: the parsed sheet and whether it
has a `url` column. -/
structure ExcelInput where
  hasUrlColumn : Bool := true
  records : List Row := []
deriving DecidableEq, Repr

/-- scrape_agent.py module-level input block: with no `--excel`, a missing
queue is `sys.exit("rss_queue.csv not found and no --excel given.")` — an
error exit — and an empty DOWNLOADED selection is also a `sys.exit`. -/
def scrape_load (excel : Option ExcelInput) (queue : Option (List Row)) : LoadResult :=
  match excel with
  | some e =>
    if ¬ e.hasUrlColumn then
      LoadResult.exitError "--excel file must contain at least a url column."
    else LoadResult.proceed e.records
  | none =>
    match queue with
    | none => LoadResult.exitError "rss_queue.csv not found and no --excel given."
    | some rows =>
      let recs := rows.filter fun r => r.status = "DOWNLOADED"
      if recs.isEmpty then
        LoadResult.exitError "No DOWNLOADED rows in rss_queue.csv - run download_agent first."
      else LoadResult.proceed recs

/-! ## summary_agent.py -/

/-- `DATE_RE.search` of summary_agent.py = `_(\d{6,8})` : leftmost
underscore followed by a six-or-more digit run, truncated to eight. -/
def sumDateRunSearch : List Char → Option (List Char)
  | [] => none
  | c :: tl =>
    if c = '_' then
      let run := tl.takeWhile Char.isDigit
      if 6 ≤ run.length then some (run.take 8) else sumDateRunSearch tl
    else sumDateRunSearch tl

/-- The digit-run interpretation of `rel_date` (summary_agent.py): eight
digits as `%Y%m%d`, six digits as `%d%m%y`; a `ValueError` falls back to the
file's modification time (`none` here). -/
def relRunDate (s : List Char) : Option PyDate :=
  if s.length = 8 then strptimeYmd8 s
  else if s.length = 6 then strptimeDdmmyy6 s
  else none

/-- `rel_date` (summary_agent.py), with the file-modification-time fallback
passed explicitly (its time-of-day component is irrelevant here). -/
def rel_date (name : String) (mtime : PyDate) : PyDate :=
  match sumDateRunSearch name.data with
  | none => mtime
  | some run => (relRunDate run).getD mtime

/-- Modelled from the spec: the "calendar-month name" vocabulary used by the
claim about ticker extraction (full English month names and their usual
abbreviations, uppercased as the extractor uppercases tokens). -/
def calendarMonthNames : List String :=
  ["JANUARY", "FEBRUARY", "MARCH", "APRIL", "MAY", "JUNE", "JULY", "AUGUST",
   "SEPTEMBER", "OCTOBER", "NOVEMBER", "DECEMBER",
   "JAN", "FEB", "MAR", "APR", "JUN", "JUL", "AUG", "SEP", "SEPT", "OCT",
   "NOV", "DEC"]

/-- Invariant of the `newest_by_tag` fold, relative to the prefix `seen` of
rows already processed and the date `dd r` each row resolves to: every
selected entry is the first among the processed rows of its tag to attain
the running maximum date (ties keep the earlier row), and a tag is absent
exactly when no processed row carries it. -/
def NbtInv (dd : Row → PyDate) (seen : List Row) (acc : List (String × Row × PyDate)) : Prop :=
  (∀ t r d, alGet acc t = some (r, d) →
    d = dd r ∧ r.dataset = t ∧
    (∃ l1 l2, seen = l1 ++ r :: l2 ∧ ∀ s ∈ l1, s.dataset = t → (dd s).key < d.key) ∧
    (∀ s ∈ seen, s.dataset = t → (dd s).key ≤ d.key)) ∧
  (∀ t, alGet acc t = none → ∀ s ∈ seen, s.dataset ≠ t)

/-! ## Helper lemmas -/

/-- The only string at most the empty string (under Python comparison) is
the empty string itself. -/
theorem leChars_nil_right : ∀ as, leChars as [] = true → as = [] := by
  intro as h
  cases as with
  | nil => rfl
  | cons a as => simp [leChars] at h

/-- A string whose character list is empty is the empty string. -/
theorem str_eq_empty_of_data_nil (s : String) (h : s.data = []) : s = "" := by
  cases s
  simp_all

/-- Length of a string built from a character list. -/
theorem strLength_mk (l : List Char) : (String.mk l).length = l.length :=
  rfl

/-- String concatenation adds lengths. -/
theorem strLength_append (a b : String) : (a ++ b).length = a.length + b.length := by
  cases a with
  | mk la =>
    cases b with
    | mk lb =>
      show (String.mk (la ++ lb)).length = _
      simp only [strLength_mk, List.length_append]

/-! ## C6 — bucket-key derivation -/

/-- C6: bucket-key derivation follows the four-step priority: a non-empty
`indicator` field wins; else `"{source}_{dataset}"` when both are non-empty
after stripping; else the first two underscore-separated tokens of
`release_id` when the second is not a URL; else the first token alone.
`{source: "BLS", dataset: "CPI"}` gives `"BLS_CPI"`; a bare
`release_id = "BLS_CPI_https://..."` gives `"BLS_CPI"`; a bare
`release_id = "BLS_https://x"` gives `"BLS"`. -/
theorem c6_bucket_key_priority :
    derive_indicator { source := "BLS", dataset := "CPI" } = "BLS_CPI" ∧
    derive_indicator { release_id := "BLS_CPI_https://www.bls.gov/cpi.htm" } = "BLS_CPI" ∧
    derive_indicator { release_id := "BLS_https://x" } = "BLS" ∧
    (∀ row : Row, row.indicator ≠ "" → derive_indicator row = pyStrip row.indicator) ∧
    (∀ row : Row, row.indicator = "" → pyStrip row.source ≠ "" → pyStrip row.dataset ≠ "" →
      derive_indicator row = pyStrip row.source ++ "_" ++ pyStrip row.dataset) ∧
    (∀ (row : Row) (t0 t1 : String) (rest : List String), row.indicator = "" →
      (pyStrip row.source = "" ∨ pyStrip row.dataset = "") →
      (splitChar '_' row.release_id.data).map String.mk = t0 :: t1 :: rest →
      pyStartsWith t1 "http" = false →
      derive_indicator row = t0 ++ "_" ++ t1) ∧
    (∀ (row : Row) (t0 t1 : String) (rest : List String), row.indicator = "" →
      (pyStrip row.source = "" ∨ pyStrip row.dataset = "") →
      (splitChar '_' row.release_id.data).map String.mk = t0 :: t1 :: rest →
      pyStartsWith t1 "http" = true → t0 ≠ "" →
      derive_indicator row = t0) := by
  refine ⟨by decide, by decide, by decide, ?_, ?_, ?_, ?_⟩
  · intro row h
    simp [derive_indicator, h]
  · intro row h1 h2 h3
    simp [derive_indicator, h1, h2, h3]
  · intro row t0 t1 rest h1 h2 hsplit hurl
    have hno : ¬ (pyStrip row.source ≠ "" ∧ pyStrip row.dataset ≠ "") := by tauto
    simp only [derive_indicator, h1]
    rw [if_neg (by simp), if_neg hno, hsplit]
    simp [hurl]
  · intro row t0 t1 rest h1 h2 hsplit hurl ht0
    have hno : ¬ (pyStrip row.source ≠ "" ∧ pyStrip row.dataset ≠ "") := by tauto
    simp only [derive_indicator, h1]
    rw [if_neg (by simp), if_neg hno, hsplit]
    simp [hurl, ht0]

/-- Witness for C6: each conditional branch of the priority applies at a
concrete row. -/
theorem c6_witness :
    derive_indicator { indicator := " CUSTOM " } = "CUSTOM" ∧
    derive_indicator { source := " BLS ", dataset := " CPI " } = "BLS_CPI" ∧
    derive_indicator { release_id := "Eurostat_EURO_x" } = "Eurostat_EURO" ∧
    derive_indicator { release_id := "BLS_https://x_y" } = "BLS" := by
  have h := c6_bucket_key_priority
  refine ⟨?_, ?_, ?_, ?_⟩
  · exact (h.2.2.2.1 { indicator := " CUSTOM " } (by decide)).trans (by decide)
  · exact (h.2.2.2.2.1 { source := " BLS ", dataset := " CPI " } (by decide)
      (by decide) (by decide)).trans (by decide)
  · exact (h.2.2.2.2.2.1 { release_id := "Eurostat_EURO_x" } "Eurostat" "EURO" ["x"]
      (by decide) (Or.inl (by decide)) (by decide) (by decide)).trans (by decide)
  · exact h.2.2.2.2.2.2 { release_id := "BLS_https://x_y" } "BLS" "https://x" ["y"]
      (by decide) (Or.inl (by decide)) (by decide) (by decide) (by decide)

/-! ## C8 — missing queue table -/

/-- C8 counterexample: with no `--excel`, the scrape stage's input block
answers a missing `rss_queue.csv` with `sys.exit(message)` — an error exit,
not a normal "nothing to do" return, refuting the claim for the scrape
reader. -/
theorem c8_counterexample :
    scrape_load none none =
      LoadResult.exitError "rss_queue.csv not found and no --excel given." ∧
    decide (scrape_load none none = LoadResult.nothingToDo) = false := by
  decide

/-- C8 amended: the download and earnings readers treat a missing queue
table as "nothing to do" and return normally, but the scrape reader (when
no `--excel` is given) exits with an error message instead. -/
theorem c8_missing_table :
    download_load none = LoadResult.nothingToDo ∧
    earnings_load none = LoadResult.nothingToDo ∧
    scrape_load none none =
      LoadResult.exitError "rss_queue.csv not found and no --excel given." := by
  decide

/-! ## C9 — ticker extraction -/

/-- C9 counterexample: the extractor's month filter only covers the fixed
set `MONTHS` (three-letter abbreviations plus `SEPT` and `DECEMBER`), so
the full month name `JUNE` — a calendar-month name — survives into the
result, refuting the universal "no calendar-month name appears" clause. -/
theorem c9_counterexample :
    extract_tickers "a-2025-june" = ["JUNE"] ∧ "JUNE" ∈ calendarMonthNames := by
  decide

/-- C9 amended: for the documented input the result is
`["AAPL", "MSFT", "GOOG"]`, and no token of the code's `MONTHS` set ever
appears in a result (full month names outside that set can). -/
theorem c9_ticker_extraction :
    extract_tickers "https://example.com/post-june-20-2025-aapl-msft-goog" =
      ["AAPL", "MSFT", "GOOG"] ∧
    ∀ (url : String) (t : String), t ∈ extract_tickers url → t ∉ MONTHS := by
  refine ⟨by decide, ?_⟩
  intro url t ht
  simp only [extract_tickers] at ht
  rcases hsearch : yearSlugEndAux 0 url.data with _ | e
  · rw [hsearch] at ht
    simp at ht
  · rw [hsearch] at ht
    simp only [List.mem_filterMap] at ht
    obtain ⟨tok, _, htok⟩ := ht
    by_cases hm : String.mk (tok.map Char.toUpper) ∈ MONTHS
    · simp [hm] at htok
    · by_cases hp : tickMatch (String.mk (tok.map Char.toUpper)).data = true
      · simp only [hm, if_false, hp, if_true, if_pos, Option.some.injEq] at htok
        exact htok ▸ hm
      · simp [hm, hp] at htok

/-- Witness for C9: the universal no-`MONTHS`-token clause applied to a
concrete extracted token. -/
theorem c9_witness : "AAPL" ∉ MONTHS :=
  c9_ticker_extraction.2 "https://example.com/post-june-20-2025-aapl-msft-goog"
    "AAPL" (by decide)

/-! ## C2 — slug date precedence -/

/-- C2 counterexample: `SLUG_DATE_RE.search` returns the *leftmost* slug
date, so a URL that contains `-june-20-2025-` but carries an earlier slug
date resolves to that earlier date, not to 2025-06-20 as the claim states
for every such record. -/
theorem c2_counterexample :
    strContains "z-dec-1-2024-june-20-2025-" "-june-20-2025-" = true ∧
    resolveEarnDate { url := "z-dec-1-2024-june-20-2025-", published := "2025-06-01" } =
      some { year := 2024, month := 12, day := 1 } ∧
    decide (PyDate.mk 2024 12 1 = PyDate.mk 2025 6 20) = false := by
  decide

/-- C2 amended: the *first* slug-date match of the URL takes precedence over
any `published` value; in particular, whenever that first match is
`june 20 2025`, the row resolves to 2025-06-20 regardless of `published`. -/
theorem c2_slug_precedence (r : Row) (h : slugSearch r.url = some (6, 20, 2025)) :
    resolveEarnDate r = some { year := 2025, month := 6, day := 20 } := by
  simp [resolveEarnDate, h, mkPyDate, daysInMonth]

/-- Witness for C2: the documented example — URL containing
`-june-20-2025-`, `published = "2025-06-01"` — resolves to 2025-06-20. -/
theorem c2_witness :
    resolveEarnDate { url := "https://x-june-20-2025-aapl", published := "2025-06-01" } =
      some { year := 2025, month := 6, day := 20 } :=
  c2_slug_precedence _ (by decide)

/-! ## C3 — totality of date resolution -/

/-- C3 counterexample: inside `newest_by_tag`, the slug branch builds
`dt.date(year, month, day)` from unvalidated slug digits, so a URL carrying
`-feb-30-2025-` raises `ValueError` (modelled as `none`): resolution is not
total over all input records. -/
theorem c3_counterexample :
    slugSearch "x-feb-30-2025-" = some (2, 30, 2025) ∧
    resolveEarnDate { url := "x-feb-30-2025-", published := "2025-06-01" } = none := by
  decide

/-- C3 amended: `best_stamp` never raises and always yields an 8-character
stamp (given an 8-character `today`), and the earnings resolver never
raises *provided* any slug-date match in the URL forms a valid calendar
date; unparseable `published` values degrade to the next rule and finally to
the `date.min` sentinel. -/
theorem c3_totality :
    (∀ r : Row,
      (∀ p : Nat × Nat × Nat, slugSearch r.url = some p →
        (mkPyDate p.2.2 p.1 p.2.1).isSome = true) →
      (resolveEarnDate r).isSome = true) ∧
    (∀ (today : String) (row : Row), today.length = 8 →
      (best_stamp today row).length = 8) := by
  constructor
  · intro r h
    rcases hs : slugSearch r.url with _ | p
    · simp only [resolveEarnDate, hs]
      rcases h1 : pyIsoDate10 ((pyStrip r.published).data.take 10) with _ | d
      · rcases h2 : strptimeDMY (pyStrip r.published).data with _ | d
        · simp
        · simp
      · simp
    · obtain ⟨mo, dy, yr⟩ := p
      simp only [resolveEarnDate, hs]
      exact h (mo, dy, yr) hs
  · intro today row htoday
    simp only [best_stamp]
    rcases bestPubParse row with _ | d
    · have hstamp : ∀ field s, stampFromDigits field = some s → s.length = 8 := by
        intro field s hf
        simp only [stampFromDigits, Option.bind_eq_some] at hf
        obtain ⟨run, hrun, hbs⟩ := hf
        by_cases h8 : run.length = 8
        · rw [bestRunStamp, if_pos h8] at hbs
          have hs' := Option.some.inj hbs
          subst hs'
          rw [strLength_mk, h8]
        · by_cases h6 : run.length = 6
          · rw [bestRunStamp, if_neg h8, if_pos h6] at hbs
            have hs' := Option.some.inj hbs
            subst hs'
            by_cases hpiv : digitsToNat (run.drop 4) < 80
            · rw [if_pos hpiv]
              simp only [strLength_append, strLength_mk, List.length_take, List.length_drop]
              rw [h6]
              decide
            · rw [if_neg hpiv]
              simp only [strLength_append, strLength_mk, List.length_take, List.length_drop]
              rw [h6]
              decide
          · rw [bestRunStamp, if_neg h8, if_neg h6] at hbs
            exact absurd hbs (by simp)
      rcases hrid : stampFromDigits row.release_id.data with _ | s
      · rcases hurl : stampFromDigits row.url.data with _ | s
        · simpa using htoday
        · simpa using hstamp _ _ hurl
      · simpa using hstamp _ _ hrid
    · simp only [fmtYmd, String.length, pad4, pad2]
      simp

/-- Witness for C3: a record with a valid slug date resolves, and a record
with an unparseable `published` and no digit run still yields an 8-character
stamp. -/
theorem c3_witness :
    (resolveEarnDate { url := "u-june-20-2025-a", published := "bogus" }).isSome = true ∧
    (best_stamp "20250101" { published := "not a date", release_id := "no digits" }).length = 8 := by
  constructor
  · apply c3_totality.1
    intro p hp
    rw [show slugSearch "u-june-20-2025-a" = some (6, 20, 2025) from by decide] at hp
    injection hp with hp
    subst hp
    decide
  · exact c3_totality.2 "20250101" _ (by decide)

/-! ## C5 — best_stamp priority -/

/-- C5: a parseable `published` value takes precedence over digit runs in
`release_id`/`url` (so the documented row yields `"20250620"`), and when no
`published` format parses, an 8-digit run is the stamp verbatim (`YYYYMMDD`)
while a 6-digit run is read `MMDDYY` with the `YY < 80 → 20YY`, else `19YY`
pivot. -/
theorem c5_best_stamp_priority :
    (∀ today : String,
      best_stamp today { published := "2025-06-20", release_id := "foo_010120" } = "20250620") ∧
    (∀ (today : String) (row : Row) (d : PyDate),
      bestPubParse row = some d → best_stamp today row = fmtYmd d) ∧
    (∀ (today : String) (row : Row) (run : List Char),
      bestPubParse row = none → dateRunSearch row.release_id.data = some run →
      run.length = 8 → best_stamp today row = String.mk run) ∧
    (∀ (today : String) (row : Row) (run : List Char),
      bestPubParse row = none → dateRunSearch row.release_id.data = some run →
      run.length = 6 →
      best_stamp today row =
        (if digitsToNat (run.drop 4) < 80 then "20" else "19") ++ String.mk (run.drop 4)
          ++ String.mk (run.take 2) ++ String.mk ((run.drop 2).take 2)) := by
  refine ⟨?_, ?_, ?_, ?_⟩
  · intro today
    rw [best_stamp,
      show bestPubParse { published := "2025-06-20", release_id := "foo_010120" } =
        some ⟨2025, 6, 20⟩ from by decide]
    exact (by decide : fmtYmd ⟨2025, 6, 20⟩ = "20250620")
  · intro today row d h
    rw [best_stamp, h]
  · intro today row run hpub hrun h8
    rw [best_stamp, hpub, stampFromDigits, hrun, Option.some_bind, bestRunStamp, if_pos h8]
  · intro today row run hpub hrun h6
    have h8 : ¬ run.length = 8 := by omega
    rw [best_stamp, hpub, stampFromDigits, hrun, Option.some_bind, bestRunStamp,
      if_neg h8, if_pos h6]

/-- Witness for C5: each branch of the priority evaluated at a concrete
row — the documented example, an ISO-with-time value, an 8-digit run, and a
6-digit run on both sides of the century pivot. -/
theorem c5_witness :
    best_stamp "TODAY" { published := "2025-06-20", release_id := "foo_010120" } = "20250620" ∧
    best_stamp "TODAY" { published := "2025-06-20T07:30:15Z", release_id := "foo_010120" } =
      "20250620" ∧
    best_stamp "TODAY" { release_id := "rel_20250513_x" } = "20250513" ∧
    best_stamp "TODAY" { release_id := "foo_010120" } = "20200101" ∧
    best_stamp "TODAY" { release_id := "foo_010190" } = "19900101" := by
  have h := c5_best_stamp_priority
  refine ⟨h.1 "TODAY", ?_, ?_, ?_, ?_⟩
  · exact (h.2.1 "TODAY" _ ⟨2025, 6, 20⟩ (by decide)).trans (by decide)
  · exact (h.2.2.1 "TODAY" _ "20250513".data (by decide) (by decide) (by decide)).trans
      (by decide)
  · exact (h.2.2.2 "TODAY" _ "010120".data (by decide) (by decide) (by decide)).trans
      (by decide)
  · exact (h.2.2.2 "TODAY" _ "010190".data (by decide) (by decide) (by decide)).trans
      (by decide)

/-! ## C4 — the two digit-run readers -/

/-- C4 counterexample: on the same 6-digit run `010203` the scrape-stage
reader (`best_stamp`, `MMDDYY`, pivot `YY < 80`) produces the stamp
`20030102` — calendar date 2003-01-02 — while the summary-stage reader
(`rel_date`, `%d%m%y`) produces 2003-02-01: the two variants do not share
one format-priority logic on 6-digit runs. -/
theorem c4_counterexample :
    best_stamp "TODAY" { release_id := "x_010203" } = "20030102" ∧
    strptimeYmd8 "20030102".data = some { year := 2003, month := 1, day := 2 } ∧
    rel_date "x_010203" { year := 1, month := 1, day := 1 } =
      { year := 2003, month := 2, day := 1 } ∧
    decide (PyDate.mk 2003 1 2 = PyDate.mk 2003 2 1) = false := by
  decide

/-- C4 amended: the two variants agree on every 8-digit digit run that
`strptime` accepts — the stamp `best_stamp` emits for it, read back as
`YYYYMMDD`, is exactly the calendar date `rel_date` derives; 6-digit runs
diverge (field order `MMDDYY` vs `DDMMYY` and pivot 80 vs 69). -/
theorem c4_eight_digit_agree (run : List Char) (d : PyDate) (h8 : run.length = 8)
    (h : relRunDate run = some d) :
    ∃ t : String, bestRunStamp run = some t ∧ strptimeYmd8 t.data = some d := by
  refine ⟨String.mk run, ?_, ?_⟩
  · rw [bestRunStamp, if_pos h8]
  · rw [relRunDate, if_pos h8] at h
    exact h

/-- Witness for C4: the 8-digit agreement at the run `20250513`. -/
theorem c4_witness :
    ∃ t : String, bestRunStamp "20250513".data = some t ∧
      strptimeYmd8 t.data = some { year := 2025, month := 5, day := 13 } :=
  c4_eight_digit_agree "20250513".data { year := 2025, month := 5, day := 13 }
    (by decide) (by decide)

/-! ## C7 — persisted queue order -/

/-- C7: the queue writer persists a permutation of its rows, sorted
descending by the derived `sort_key` (a digits-only `YYYYMMDD` rearrangement
of a well-formed `published`, as the two examples show); rows with the empty
fallback key come after every row with a non-empty key. -/
theorem c7_queue_order (rows : List Row) :
    List.Perm (write_queue rows) rows ∧
    (write_queue rows).Pairwise queueGE ∧
    (∀ i j : Fin (write_queue rows).length, i ≤ j →
      sort_key ((write_queue rows).get i) = "" →
      sort_key ((write_queue rows).get j) = "") ∧
    sort_key { published := "2025-06-19" } = "20250619" ∧
    sort_key { published := "19-06-2025" } = "20250619" := by
  have hsorted : (write_queue rows).Pairwise queueGE :=
    List.sorted_insertionSort queueGE rows
  refine ⟨List.perm_insertionSort queueGE rows, hsorted, ?_, by decide, by decide⟩
  intro i j hij h0
  rcases eq_or_lt_of_le hij with heq | hlt
  · exact heq ▸ h0
  · have hge : queueGE ((write_queue rows).get i) ((write_queue rows).get j) :=
      List.pairwise_iff_get.mp hsorted i j hlt
    unfold queueGE pyStrLE at hge
    rw [h0] at hge
    exact str_eq_empty_of_data_nil _ (leChars_nil_right _ hge)

/-- Witness for C7: in a two-row queue whose second persisted row has an
unparseable `published`, that row's key is empty and it sits at the end. -/
theorem c7_witness :
    sort_key ((write_queue [{ release_id := "a", published := "junk" },
        { release_id := "b", published := "2025-06-19" }]).get ⟨1, by decide⟩) = "" := by
  have h := (c7_queue_order [{ release_id := "a", published := "junk" },
    { release_id := "b", published := "2025-06-19" }]).2.2.1
  exact h ⟨1, by decide⟩ ⟨1, by decide⟩ (le_refl _) (by decide)

/-! ## C1 — identity purity and second-pass stability -/

/-- Every candidate row's identity either was already seen or appears among
the identities the dedup fold emits. -/
theorem dedupNew_mem_ids : ∀ (seen : List String) (cs : List Row), ∀ c ∈ cs,
    c.release_id ∈ seen ∨ c.release_id ∈ (dedupNew seen cs).map Row.release_id := by
  intro seen cs
  induction cs generalizing seen with
  | nil => intro c hc; cases hc
  | cons c0 cs ih =>
    intro c hc
    rcases List.mem_cons.mp hc with rfl | hc
    · by_cases h0 : c.release_id ∈ seen
      · exact Or.inl h0
      · right
        rw [dedupNew, if_neg h0]
        exact List.mem_cons_self _ _
    · by_cases h0 : c0.release_id ∈ seen
      · rw [dedupNew, if_pos h0]
        exact ih seen c hc
      · rw [dedupNew, if_neg h0]
        rcases ih (c0.release_id :: seen) c hc with h | h
        · rcases List.mem_cons.mp h with heq | hseen
          · right
            rw [List.map_cons, heq]
            exact List.mem_cons_self _ _
          · exact Or.inl hseen
        · right
          rw [List.map_cons]
          exact List.mem_cons_of_mem _ h

/-- The dedup fold emits nothing when every candidate identity was seen. -/
theorem dedupNew_nil_of_seen : ∀ (seen : List String) (cs : List Row),
    (∀ c ∈ cs, c.release_id ∈ seen) → dedupNew seen cs = [] := by
  intro seen cs
  induction cs with
  | nil => intro; rfl
  | cons c0 cs ih =>
    intro h
    rw [dedupNew, if_pos (h c0 (List.mem_cons_self _ _))]
    exact ih fun c hc => h c (List.mem_cons_of_mem _ hc)

/-- C1: `identity` is the pure, deterministic concatenation
`"{source}_{dataset}_{unique}"` (no randomness, no clock), and a second
discovery pass over an unchanged feed and the queue saved by the first pass
adds zero records: the queue keeps its row count and its set of
`release_id` values. -/
theorem c1_identity_second_pass (feed : List FeedSource) (existing : List Row) :
    (∀ s d u, identity s d u = s ++ "_" ++ d ++ "_" ++ u) ∧
    (runDiscovery feed (runDiscovery feed existing)).length =
      (runDiscovery feed existing).length ∧
    ((runDiscovery feed (runDiscovery feed existing)).map Row.release_id).toFinset =
      ((runDiscovery feed existing).map Row.release_id).toFinset := by
  refine ⟨fun s d u => rfl, ?_⟩
  have hperm1 : List.Perm (runDiscovery feed existing)
      (existing ++ dedupNew (existing.map Row.release_id) (candidates feed)) :=
    List.perm_insertionSort _ _
  have hall : ∀ c ∈ candidates feed,
      c.release_id ∈ (runDiscovery feed existing).map Row.release_id := by
    intro c hc
    rcases dedupNew_mem_ids (existing.map Row.release_id) (candidates feed) c hc with h | h
    · exact ((hperm1.map Row.release_id).mem_iff).mpr
        (by rw [List.map_append]; exact List.mem_append_left _ h)
    · exact ((hperm1.map Row.release_id).mem_iff).mpr
        (by rw [List.map_append]; exact List.mem_append_right _ h)
  have hnew2 : dedupNew ((runDiscovery feed existing).map Row.release_id)
      (candidates feed) = [] :=
    dedupNew_nil_of_seen _ _ hall
  have hperm2 : List.Perm (runDiscovery feed (runDiscovery feed existing))
      (runDiscovery feed existing) := by
    rw [runDiscovery, hnew2, List.append_nil]
    exact List.perm_insertionSort _ _
  exact ⟨hperm2.length_eq, List.toFinset_eq_of_perm _ _ (hperm2.map Row.release_id)⟩

/-! ## C10 — latest-selection tie-break -/

/-- Looking up the key just assigned returns the assigned value. -/
theorem alGet_alSet_self (acc : List (String × Row × PyDate)) (t : String) (v : Row × PyDate) :
    alGet (alSet acc t v) t = some v := by
  induction acc with
  | nil => simp [alSet, alGet]
  | cons kv rest ih =>
    obtain ⟨k, w⟩ := kv
    by_cases hk : k = t
    · simp [alSet, alGet, hk]
    · simp [alSet, alGet, hk, ih]

/-- Assignment to one key leaves other lookups unchanged. -/
theorem alGet_alSet_other (acc : List (String × Row × PyDate)) {t t' : String}
    (h : t' ≠ t) (v : Row × PyDate) :
    alGet (alSet acc t v) t' = alGet acc t' := by
  induction acc with
  | nil => simp [alSet, alGet, Ne.symm h]
  | cons kv rest ih =>
    obtain ⟨k, w⟩ := kv
    by_cases hk : k = t
    · subst hk
      simp [alSet, alGet, Ne.symm h]
    · by_cases hk' : k = t'
      · simp [alSet, alGet, hk, hk', h]
      · simp [alSet, alGet, hk, hk', ih]

/-- One `newest_by_tag` iteration preserves the selection invariant. -/
theorem nbtStep_inv {dd : Row → PyDate} {seen : List Row}
    {acc : List (String × Row × PyDate)} (r : Row) (hInv : NbtInv dd seen acc) :
    NbtInv dd (seen ++ [r]) (nbtStep acc r (dd r)) := by
  constructor
  · intro t r' d' hget
    rcases hacc : alGet acc r.dataset with _ | ⟨r0, d0⟩
    · simp only [nbtStep, hacc] at hget
      by_cases ht : t = r.dataset
      · subst ht
        rw [alGet_alSet_self] at hget
        have h12 := Option.some.inj hget
        simp only [Prod.mk.injEq] at h12
        obtain ⟨h1, h2⟩ := h12
        subst h1
        subst h2
        refine ⟨rfl, rfl, ⟨seen, [], by simp, ?_⟩, ?_⟩
        · intro s hs hds
          exact absurd hds (hInv.2 _ hacc s hs)
        · intro s hs hds
          rcases List.mem_append.mp hs with hs | hs
          · exact absurd hds (hInv.2 _ hacc s hs)
          · rw [List.mem_singleton.mp hs]
      · rw [alGet_alSet_other _ ht _] at hget
        obtain ⟨hd, hds, ⟨l1, l2, hsplit, hltl⟩, hle⟩ := hInv.1 t r' d' hget
        refine ⟨hd, hds, ⟨l1, l2 ++ [r], by rw [hsplit]; simp, hltl⟩, ?_⟩
        intro s hs hds'
        rcases List.mem_append.mp hs with hs | hs
        · exact hle s hs hds'
        · have hsr := List.mem_singleton.mp hs
          subst hsr
          exact absurd hds'.symm ht
    · simp only [nbtStep, hacc] at hget
      obtain ⟨hd0, hds0, _, hle0⟩ := hInv.1 _ r0 d0 hacc
      by_cases hlt0 : d0.key < (dd r).key
      · rw [if_pos hlt0] at hget
        by_cases ht : t = r.dataset
        · subst ht
          rw [alGet_alSet_self] at hget
          have h12 := Option.some.inj hget
          simp only [Prod.mk.injEq] at h12
          obtain ⟨h1, h2⟩ := h12
          subst h1
          subst h2
          refine ⟨rfl, rfl, ⟨seen, [], by simp, ?_⟩, ?_⟩
          · intro s hs hds
            exact lt_of_le_of_lt (hle0 s hs hds) hlt0
          · intro s hs hds
            rcases List.mem_append.mp hs with hs | hs
            · exact le_of_lt (lt_of_le_of_lt (hle0 s hs hds) hlt0)
            · rw [List.mem_singleton.mp hs]
        · rw [alGet_alSet_other _ ht _] at hget
          obtain ⟨hd, hds, ⟨l1, l2, hsplit, hltl⟩, hle⟩ := hInv.1 t r' d' hget
          refine ⟨hd, hds, ⟨l1, l2 ++ [r], by rw [hsplit]; simp, hltl⟩, ?_⟩
          intro s hs hds'
          rcases List.mem_append.mp hs with hs | hs
          · exact hle s hs hds'
          · have hsr := List.mem_singleton.mp hs
            subst hsr
            exact absurd hds'.symm ht
      · rw [if_neg hlt0] at hget
        obtain ⟨hd, hds, ⟨l1, l2, hsplit, hltl⟩, hle⟩ := hInv.1 t r' d' hget
        refine ⟨hd, hds, ⟨l1, l2 ++ [r], by rw [hsplit]; simp, hltl⟩, ?_⟩
        intro s hs hds'
        rcases List.mem_append.mp hs with hs | hs
        · exact hle s hs hds'
        · have hsr := List.mem_singleton.mp hs
          subst hsr
          rw [hds'] at hacc
          have h12 := Option.some.inj (hget.symm.trans hacc)
          simp only [Prod.mk.injEq] at h12
          obtain ⟨h1, h2⟩ := h12
          rw [h2]
          omega
  · intro t hnone s hs hds
    have hne : t ≠ r.dataset := by
      intro hteq
      rcases hacc : alGet acc r.dataset with _ | ⟨r0, d0⟩
      · rw [hteq] at hnone
        simp only [nbtStep, hacc] at hnone
        rw [alGet_alSet_self] at hnone
        simp at hnone
      · rw [hteq] at hnone
        simp only [nbtStep, hacc] at hnone
        by_cases hlt0 : d0.key < (dd r).key
        · rw [if_pos hlt0, alGet_alSet_self] at hnone
          simp at hnone
        · rw [if_neg hlt0, hacc] at hnone
          simp at hnone
    have hacc' : alGet acc t = none := by
      rcases hacc : alGet acc r.dataset with _ | ⟨r0, d0⟩
      · simp only [nbtStep, hacc] at hnone
        rwa [alGet_alSet_other _ hne _] at hnone
      · simp only [nbtStep, hacc] at hnone
        by_cases hlt0 : d0.key < (dd r).key
        · rw [if_pos hlt0] at hnone
          rwa [alGet_alSet_other _ hne _] at hnone
        · rwa [if_neg hlt0] at hnone
    rcases List.mem_append.mp hs with hsl | hsl
    · exact hInv.2 t hacc' s hsl hds
    · have hsr := List.mem_singleton.mp hsl
      subst hsr
      exact hne hds.symm

/-- The `newest_by_tag` fold carries the selection invariant across any
list of rows that all resolve. -/
theorem nbtGo_inv (dd : Row → PyDate) : ∀ (rs seen : List Row)
    (acc : List (String × Row × PyDate)), NbtInv dd seen acc →
    (∀ r ∈ rs, resolveEarnDate r = some (dd r)) →
    ∀ out, nbtGo acc rs = some out → NbtInv dd (seen ++ rs) out := by
  intro rs
  induction rs with
  | nil =>
    intro seen acc hInv _ out hout
    have : acc = out := Option.some.inj hout
    subst this
    simpa using hInv
  | cons r rs ih =>
    intro seen acc hInv hres out hout
    simp only [nbtGo, hres r (List.mem_cons_self r rs)] at hout
    have hstep := ih (seen ++ [r]) (nbtStep acc r (dd r)) (nbtStep_inv r hInv)
      (fun s hs => hres s (List.mem_cons_of_mem _ hs)) out hout
    rw [List.append_assoc] at hstep
    exact hstep

/-- C10: when every row resolves, the entry `newest_by_tag` keeps for a tag
is the first row of that tag attaining the maximum resolved date — so a row
with the same tag and an equal date never displaces the earlier selection,
and a later row wins only with a strictly greater date; the selection is
deterministic in the input order. -/
theorem c10_tie_break (rows : List Row) (dd : Row → PyDate)
    (hres : ∀ r ∈ rows, resolveEarnDate r = some (dd r))
    (out : List (String × Row × PyDate)) (hout : newest_by_tag rows = some out)
    (t : String) (r : Row) (d : PyDate) (hget : alGet out t = some (r, d)) :
    d = dd r ∧ r.dataset = t ∧
    (∃ l1 l2, rows = l1 ++ r :: l2 ∧ ∀ s ∈ l1, s.dataset = t → (dd s).key < d.key) ∧
    (∀ s ∈ rows, s.dataset = t → (dd s).key ≤ d.key) := by
  have hbase : NbtInv dd [] [] := by
    constructor
    · intro t' r' d' h
      simp [alGet] at h
    · intro t' _ s hs
      cases hs
  have hall := nbtGo_inv dd rows [] [] hbase hres out hout
  exact hall.1 t r d hget

/-- Witness for C10: two rows of the same tag resolving to the same date
(one ISO, one `DD-MM-YYYY`): the fold keeps the first, and the theorem
places the selected row first with no strictly-smaller-dated predecessor. -/
theorem c10_witness :
    newest_by_tag
        [{ dataset := "EARN_PRE", published := "2025-06-19", release_id := "one" },
         { dataset := "EARN_PRE", published := "19-06-2025", release_id := "two" }] =
      some [("EARN_PRE",
        { dataset := "EARN_PRE", published := "2025-06-19", release_id := "one" },
        { year := 2025, month := 6, day := 19 })] ∧
    (∃ l1 l2,
      ([{ dataset := "EARN_PRE", published := "2025-06-19", release_id := "one" },
        { dataset := "EARN_PRE", published := "19-06-2025", release_id := "two" }] : List Row) =
        l1 ++ { dataset := "EARN_PRE", published := "2025-06-19", release_id := "one" } :: l2 ∧
      ∀ s ∈ l1, s.dataset = "EARN_PRE" →
        (PyDate.mk 2025 6 19).key < (PyDate.mk 2025 6 19).key) := by
  constructor
  · decide
  · have happ := c10_tie_break
      [{ dataset := "EARN_PRE", published := "2025-06-19", release_id := "one" },
       { dataset := "EARN_PRE", published := "19-06-2025", release_id := "two" }]
      (fun _ => ⟨2025, 6, 19⟩) (by decide)
      [("EARN_PRE",
        { dataset := "EARN_PRE", published := "2025-06-19", release_id := "one" },
        ⟨2025, 6, 19⟩)]
      (by decide) "EARN_PRE"
      { dataset := "EARN_PRE", published := "2025-06-19", release_id := "one" }
      ⟨2025, 6, 19⟩ (by decide)
    exact happ.2.2.1

end MPP
